import Mathlib

/-!
Shallow embedding of the DocQline ticket-lifecycle and admission coordinator.

Source of truth: the first (current) `App` component in `src/App.tsx`
(lines 1-509), together with `src/types.ts` and the call sites in
`src/components/ReceptionDashboard.tsx`.  Pure payload fields that no claim
touches (customer name, phone, comms channel, member id, service category,
counter id) are omitted from the `Ticket` record; every field that any claim
or any modelled operation reads or writes is kept.

Modelling conventions:
* timestamps are `Nat` milliseconds, mirroring `Date.now()`; each command
  carries the instant at which it runs;
* `Math.random().toString(36)` id generation is modelled by a fresh-id
  counter in the state (each created ticket gets a previously unused id);
* the `async`/`setTimeout` promotion that `updateTicketStatus` schedules is
  modelled as running right after the status update commits, with the
  selection of the candidate reading the pre-update ticket list (the React
  closure captures the stale `tickets` array) and the write applying to the
  post-update list (`setTickets(prev => ...)` reads fresh state);
* the code's silent early returns that refuse an operation (ticket not
  found, capacity gate) are modelled as typed error results; on an error the
  state is left unchanged, exactly as in the source.
-/

namespace DocQline

/-- `TicketStatus` from `src/types.ts`. -/
inductive TicketStatus where
  | REMOTE_WAITING
  | ELIGIBLE_FOR_ENTRY
  | IN_BUILDING
  | WAITING
  | CALLED
  | ARRIVED
  | NOT_HERE
  | IN_TRANSACTION
  | IN_SERVICE
  | SERVED
  | COMPLETED
  | REMOVED
deriving DecidableEq, Repr

/-- `triggeredBy` field of `StatusTransition` in `src/types.ts`. -/
inductive Actor where
  | system
  | reception
  | teller
  | customer
deriving DecidableEq, Repr

/-- `StatusTransition` from `src/types.ts`. -/
structure StatusTransition where
  ticketId : Nat
  fromStatus : TicketStatus
  toStatus : TicketStatus
  timestamp : Nat
  triggeredBy : Actor
  reason : Option String
deriving DecidableEq, Repr

/-- `Ticket` from `src/types.ts` (display-only payload fields omitted). -/
structure Ticket where
  id : Nat
  queueNumber : Nat
  status : TicketStatus
  branchId : String
  joinedAt : Nat
  calledAt : Option Nat := none
  eligibleForEntryAt : Option Nat := none
  enteredBuildingAt : Option Nat := none
  leftBuildingAt : Option Nat := none
  transactionStartedAt : Option Nat := none
  transactionEndedAt : Option Nat := none
  bumpedAt : Option Nat := none
  feedbackStars : Option Nat := none
  auditNotes : Option String := none
  statusHistory : List StatusTransition := []
  waitTimeMinutes : Option Nat := none
  isNoShow : Bool := false
  tellerId : Option String := none
deriving DecidableEq, Repr

/-- `BranchConfig` from `src/types.ts` (the fields the coordinator reads). -/
structure BranchConfig where
  id : String
  avgTransactionTime : Nat
  gracePeriodMinutes : Nat
  isPaused : Bool
  maxInBuilding : Nat
  excludeInServiceFromCapacity : Bool
deriving DecidableEq, Repr

/-- The single branch configured in `src/App.tsx` (`BRANCHES[0]`). -/
def vieuxFortBranch : BranchConfig :=
  { id := "vieux-fort-branch"
  , avgTransactionTime := 7
  , gracePeriodMinutes := 10
  , isPaused := false
  , maxInBuilding := 9
  , excludeInServiceFromCapacity := false }

/-- The branch id string of the configured branch. -/
def vfb : String := "vieux-fort-branch"

/-- The mutable state owned by the `App` component: the ticket list, the
selected branch's configuration, the teller-id text box, and the fresh-id
counter modelling `Math.random` id generation. -/
structure AppState where
  tickets : List Ticket
  cfg : BranchConfig
  nextId : Nat
  tellerId : String
deriving DecidableEq, Repr

/-- `addStatusTransition` helper from `src/App.tsx` lines 42-52. -/
def addStatusTransition (ticket : Ticket) (fromStatus toStatus : TicketStatus)
    (triggeredBy : Actor) (reason : Option String) (now : Nat) :
    List StatusTransition :=
  ticket.statusHistory ++
    [{ ticketId := ticket.id, fromStatus := fromStatus, toStatus := toStatus
     , timestamp := now, triggeredBy := triggeredBy, reason := reason }]

/-- `getInBuildingCount` from `src/App.tsx` lines 55-64, parametrised by the
ticket list it reads (the React closure may hold a stale list). -/
def getInBuildingCountList (cfg : BranchConfig) (tickets : List Ticket)
    (branchId : String) : Nat :=
  let branchTickets := tickets.filter (fun t => t.branchId = branchId)
  let inBuilding := branchTickets.filter (fun t => t.status = TicketStatus.IN_BUILDING)
  let inService :=
    if cfg.excludeInServiceFromCapacity then ([] : List Ticket)
    else branchTickets.filter
      (fun t => t.status = TicketStatus.IN_SERVICE ∨ t.status = TicketStatus.IN_TRANSACTION)
  inBuilding.length + inService.length

/-- `getInBuildingCount` applied to the current state. -/
def getInBuildingCount (s : AppState) (branchId : String) : Nat :=
  getInBuildingCountList s.cfg s.tickets branchId

/-- The `REMOTE_WAITING`/`WAITING` tickets of a branch, as filtered at
`src/App.tsx` lines 80-83. -/
def remoteWaitingIn (tickets : List Ticket) (branchId : String) : List Ticket :=
  (tickets.filter (fun t => t.branchId = branchId)).filter
    (fun t => t.status = TicketStatus.REMOTE_WAITING ∨ t.status = TicketStatus.WAITING)

/-- First ticket with minimal `queueNumber`: the head of the stable
ascending sort `sort((a, b) => a.queueNumber - b.queueNumber)` at
`src/App.tsx` line 83. -/
def firstByQueueNumber : List Ticket → Option Ticket
  | [] => none
  | t :: ts =>
    match firstByQueueNumber ts with
    | none => some t
    | some u => if t.queueNumber ≤ u.queueNumber then some t else some u

/-- `promoteNextRemoteCustomer` from `src/App.tsx` lines 79-115.  `sel` is
the ticket list the closure reads (candidate selection and the occupancy
count in the log message); `cur` is the list the functional `setTickets`
update is applied to. -/
def promoteStep (cfg : BranchConfig) (sel cur : List Ticket)
    (branchId : String) (now : Nat) : List Ticket :=
  match firstByQueueNumber (remoteWaitingIn sel branchId) with
  | none => cur
  | some nextCustomer =>
    let currentCount := getInBuildingCountList cfg sel branchId
    cur.map (fun t =>
      if t.id = nextCustomer.id then
        { t with
            status := TicketStatus.ELIGIBLE_FOR_ENTRY
          , eligibleForEntryAt := some now
          , statusHistory :=
              addStatusTransition nextCustomer nextCustomer.status
                TicketStatus.ELIGIBLE_FOR_ENTRY Actor.system
                (some ("Capacity opened (" ++ toString currentCount ++ "->"
                  ++ toString (currentCount + 1) ++ ")")) now }
      else t)

/-- Direct invocation of `promoteNextRemoteCustomer` (selection and write
both act on the current list). -/
def promoteNextRemoteCustomer (s : AppState) (branchId : String) (now : Nat) :
    List Ticket :=
  promoteStep s.cfg s.tickets s.tickets branchId now

/-- `Math.max(...l) ` over a list of naturals, defaulting to 0 on `[]`. -/
def natMaxList (l : List Nat) : Nat := l.foldl Nat.max 0

/-- `addTicket` from `src/App.tsx` lines 146-188: next queue number is the
maximum `queueNumber` over ALL tickets of the branch plus one (1 when the
branch has no tickets), status starts at `REMOTE_WAITING`, and the ticket is
appended with a one-entry audit history. -/
def addTicket (s : AppState) (branchId : String) (now : Nat) : AppState :=
  let branchTickets := s.tickets.filter (fun t => t.branchId = branchId)
  let nextNum :=
    if branchTickets.length > 0 then
      natMaxList (branchTickets.map (fun t => t.queueNumber)) + 1
    else 1
  let newTicket : Ticket :=
    { id := s.nextId
    , queueNumber := nextNum
    , status := TicketStatus.REMOTE_WAITING
    , branchId := branchId
    , joinedAt := now
    , statusHistory :=
        [{ ticketId := s.nextId
         , fromStatus := TicketStatus.REMOTE_WAITING
         , toStatus := TicketStatus.REMOTE_WAITING
         , timestamp := now
         , triggeredBy := Actor.customer
         , reason := some ("Joined queue") }] }
  { s with tickets := s.tickets ++ [newTicket], nextId := s.nextId + 1 }

/-- The statuses for which `updateTicketStatus` (lines 249-254) treats the
updated ticket as leaving the building. -/
def isLeavingBuilding (status : TicketStatus) : Bool :=
  status = TicketStatus.REMOTE_WAITING ∨ status = TicketStatus.IN_SERVICE ∨
  status = TicketStatus.IN_TRANSACTION ∨ status = TicketStatus.SERVED ∨
  status = TicketStatus.COMPLETED ∨ status = TicketStatus.REMOVED

/-- The merged `updates` object of `updateTicketStatus`
(`src/App.tsx` lines 194-223) applied to a ticket `t` with `t.id = id`
(`{ ...t, ...updates }`).  `ticket` is the ticket found by `find`, from
which `fromStatus`, the audit-history base and `enteredBuildingAt` are read. -/
def applyStatusUpdate (ticket : Ticket) (fromStatus status : TicketStatus)
    (triggeredBy : Actor) (reason : Option String) (tellerId : String)
    (now : Nat) (t : Ticket) : Ticket :=
  let t := { t with
      status := status
    , statusHistory := addStatusTransition ticket fromStatus status triggeredBy reason now }
  let t :=
    if status = TicketStatus.CALLED ∨ status = TicketStatus.ELIGIBLE_FOR_ENTRY then
      { t with calledAt := some now, eligibleForEntryAt := some now }
    else t
  let t :=
    if status = TicketStatus.IN_BUILDING then { t with enteredBuildingAt := some now }
    else t
  let t :=
    if status = TicketStatus.REMOTE_WAITING ∧ fromStatus = TicketStatus.IN_BUILDING then
      { t with leftBuildingAt := some now }
    else t
  let t :=
    if status = TicketStatus.IN_TRANSACTION ∨ status = TicketStatus.IN_SERVICE then
      { t with transactionStartedAt := some now, tellerId := some tellerId }
    else t
  let t :=
    if status = TicketStatus.SERVED ∨ status = TicketStatus.COMPLETED then
      match ticket.enteredBuildingAt with
      | some e =>
        { t with transactionEndedAt := some now
               , waitTimeMinutes := some ((now - e + 30000) / 60000) }
      | none => { t with transactionEndedAt := some now }
    else t
  if status = TicketStatus.NOT_HERE then { t with bumpedAt := some now } else t

/-- The refusal outcomes of `updateTicketStatus`: the silent `return` when
the ticket is not found (line 192) and the capacity-gate `return`
(lines 230-234). -/
inductive UpdateError where
  | TicketNotFound
  | AtCapacity
deriving DecidableEq, Repr

/-- `updateTicketStatus` from `src/App.tsx` lines 190-263.  On the capacity
gate (`status === IN_BUILDING && currentCount >= maxCapacity`) nothing is
written.  After a committed update whose `fromStatus` was `IN_BUILDING` and
whose target leaves the building, the deferred
`promoteNextRemoteCustomer` runs (selection over the stale pre-update list). -/
def updateTicketStatus (s : AppState) (id : Nat) (status : TicketStatus)
    (triggeredBy : Actor) (reason : Option String) (now : Nat) :
    Except UpdateError (List Ticket) :=
  match s.tickets.find? (fun t => t.id = id) with
  | none => Except.error UpdateError.TicketNotFound
  | some ticket =>
    let fromStatus := ticket.status
    if status = TicketStatus.IN_BUILDING ∧
        getInBuildingCount s ticket.branchId ≥ s.cfg.maxInBuilding then
      Except.error UpdateError.AtCapacity
    else
      let updated := s.tickets.map (fun t =>
        if t.id = id then
          applyStatusUpdate ticket fromStatus status triggeredBy reason s.tellerId now t
        else t)
      if fromStatus = TicketStatus.IN_BUILDING ∧ isLeavingBuilding status then
        Except.ok (promoteStep s.cfg s.tickets updated ticket.branchId now)
      else
        Except.ok updated

/-- Run `updateTicketStatus` as a state transformer: on an error path the
source returns without touching the state. -/
def runUpdateStatus (s : AppState) (id : Nat) (status : TicketStatus)
    (triggeredBy : Actor) (reason : Option String) (now : Nat) : AppState :=
  match updateTicketStatus s id status triggeredBy reason now with
  | Except.ok ts => { s with tickets := ts }
  | Except.error _ => s

/-- The `Partial<Ticket>` payloads that the program feeds to `updateTicket`:
`ReceptionDashboard` sends `auditNotes`, `flagNoShow` sends `isNoShow`, and
the body of `updateTicket` special-cases a `status` field. -/
structure TicketPatch where
  status : Option TicketStatus := none
  auditNotes : Option String := none
  isNoShow : Option Bool := none
deriving DecidableEq, Repr

/-- `{ ...t, ...updates }` for a `TicketPatch`, together with the
`statusHistory` entry `updateTicket` may have added to the updates. -/
def applyPatch (patch : TicketPatch) (history : Option (List StatusTransition))
    (t : Ticket) : Ticket :=
  let t := match patch.status with
    | some st => { t with status := st }
    | none => t
  let t := match patch.auditNotes with
    | some n => { t with auditNotes := some n }
    | none => t
  let t := match patch.isNoShow with
    | some b => { t with isNoShow := b }
    | none => t
  match history with
  | some h => { t with statusHistory := h }
  | none => t

/-- `updateTicket` from `src/App.tsx` lines 265-297: a generic field merge;
when the patch changes the status away from `IN_BUILDING` the deferred
promotion runs, with candidate selection over the stale pre-update list. -/
def updateTicket (s : AppState) (id : Nat) (patch : TicketPatch) (now : Nat) :
    List Ticket :=
  match s.tickets.find? (fun t => t.id = id) with
  | none => s.tickets
  | some ticket =>
    let history : Option (List StatusTransition) :=
      match patch.status with
      | some st =>
        if st ≠ ticket.status then
          some (addStatusTransition ticket ticket.status st Actor.reception
            (some (match patch.auditNotes with
                   | some n => "Manual update: " ++ n
                   | none => "Manual status update")) now)
        else none
      | none => none
    let updated := s.tickets.map (fun t =>
      if t.id = id then applyPatch patch history t else t)
    match patch.status with
    | some st =>
      if ticket.status = TicketStatus.IN_BUILDING ∧ st ≠ TicketStatus.IN_BUILDING then
        promoteStep s.cfg s.tickets updated ticket.branchId now
      else updated
    | none => updated

/-- `submitFeedback` from `src/App.tsx` lines 299-304. -/
def submitFeedback (s : AppState) (id : Nat) (stars : Nat) : List Ticket :=
  s.tickets.map (fun t => if t.id = id then { t with feedbackStars := some stars } else t)

/-- The coordinator's command surface (`src/App.tsx`): join, the two update
entry points, the promotion routine, `flagNoShow`, `submitFeedback`. -/
inductive Cmd where
  | join (branchId : String) (now : Nat)
  | updateStatus (id : Nat) (status : TicketStatus) (triggeredBy : Actor)
      (reason : Option String) (now : Nat)
  | update (id : Nat) (patch : TicketPatch) (now : Nat)
  | promote (branchId : String) (now : Nat)
  | flagNoShow (id : Nat) (now : Nat)
  | feedback (id : Nat) (stars : Nat)
deriving DecidableEq, Repr

/-- One command against the state.  `flagNoShow` (lines 315-318) is the
sequential composition `updateTicket {isNoShow:true}` then
`updateTicketStatus NOT_HERE`. -/
def step (s : AppState) : Cmd → AppState
  | Cmd.join b now => addTicket s b now
  | Cmd.updateStatus id st trig r now => runUpdateStatus s id st trig r now
  | Cmd.update id patch now => { s with tickets := updateTicket s id patch now }
  | Cmd.promote b now => { s with tickets := promoteNextRemoteCustomer s b now }
  | Cmd.flagNoShow id now =>
    let s1 := { s with tickets := updateTicket s id { isNoShow := some true } now }
    runUpdateStatus s1 id TicketStatus.NOT_HERE Actor.reception none now
  | Cmd.feedback id stars => { s with tickets := submitFeedback s id stars }

/-- Execute a command list left to right. -/
def run (s : AppState) (cmds : List Cmd) : AppState := cmds.foldl step s

/-- The initial state of the app: no tickets, fresh counter, default teller. -/
def initState (cfg : BranchConfig) : AppState :=
  { tickets := [], cfg := cfg, nextId := 0, tellerId := "Teller-1" }

/-- A state is reachable when some command sequence produces it from the
empty initial state. -/
def Reachable (cfg : BranchConfig) (s : AppState) : Prop :=
  ∃ cmds : List Cmd, s = run (initState cfg) cmds

/-- Status of the first ticket carrying a given id. -/
def statusOf (tickets : List Ticket) (id : Nat) : Option TicketStatus :=
  (tickets.find? (fun t => t.id = id)).map (fun t => t.status)

/-- Queue number of the first ticket carrying a given id. -/
def queueNumberOf (tickets : List Ticket) (id : Nat) : Option Nat :=
  (tickets.find? (fun t => t.id = id)).map (fun t => t.queueNumber)

/-- Terminal statuses per the data model (SERVED/COMPLETED/REMOVED). -/
def isTerminal (st : TicketStatus) : Bool :=
  st = TicketStatus.SERVED ∨ st = TicketStatus.COMPLETED ∨ st = TicketStatus.REMOVED

/-- Queue numbers of the tickets of one branch, in list order. -/
def branchQueueNums (tickets : List Ticket) (b : String) : List Nat :=
  (tickets.filter (fun t => t.branchId = b)).map (fun t => t.queueNumber)

/-- Active (non-terminal) tickets of a branch. -/
def activeIn (tickets : List Ticket) (branchId : String) : List Ticket :=
  tickets.filter (fun t => decide (t.branchId = branchId) && !isTerminal t.status)

/-- Modelled from the spec: `PositionSequencer.nextNumber(branch)` =
`max(active queueNumbers, default 0) + 1` (spec section 4.4); the
implementation of this sequencer is not under `src/`, only its description.
Used to compare the spec's numbering rule with `addTicket`. -/
def nextNumberSpec (tickets : List Ticket) (branchId : String) : Nat :=
  natMaxList ((activeIn tickets branchId).map (fun t => t.queueNumber)) + 1

/-- Stable insertion into an ascending-by-queueNumber list: an element is
placed after all elements with a smaller-or-equal queue number. -/
def insertByQueueNumber (t : Ticket) : List Ticket → List Ticket
  | [] => [t]
  | u :: us =>
    if t.queueNumber < u.queueNumber then t :: u :: us
    else u :: insertByQueueNumber t us

/-- Stable ascending sort by `queueNumber`. -/
def sortByQueueNumber (l : List Ticket) : List Ticket :=
  l.foldl (fun acc t => insertByQueueNumber t acc) []

/-- Modelled from the spec: `PositionSequencer.compact(branch)` (spec
section 4.4), absent from `src/`: sort the active tickets of the branch by
current `queueNumber` ascending and reassign `1..N` in that order; tickets
of other branches and terminal tickets keep their numbers. -/
def compact (tickets : List Ticket) (branchId : String) : List Ticket :=
  let sorted := sortByQueueNumber (activeIn tickets branchId)
  tickets.map (fun t =>
    match sorted.findIdx? (fun u => u.id = t.id) with
    | some i => { t with queueNumber := i + 1 }
    | none => t)

/-- Modelled from the spec: steps 1-2 of the grace-period demotion protocol
(spec section 4.3): `target = queueNumber + 4`; if another active ticket of
the branch holds `target`, swap the two queue numbers, otherwise the ticket
receives `max(active queueNumbers in branch) + 1`. -/
def demoteRenumber (tickets : List Ticket) (t : Ticket) : List Ticket :=
  let target := t.queueNumber + 4
  let active := activeIn tickets t.branchId
  match active.find? (fun u => decide (u.queueNumber = target) && decide (u.id ≠ t.id)) with
  | some holder =>
    tickets.map (fun u =>
      if u.id = t.id then { u with queueNumber := target }
      else if u.id = holder.id then { u with queueNumber := t.queueNumber }
      else u)
  | none =>
    tickets.map (fun u =>
      if u.id = t.id then
        { u with queueNumber := natMaxList (active.map (fun v => v.queueNumber)) + 1 }
      else u)

/-- Modelled from the spec: steps 1-3 of the demotion protocol for one
ticket (spec sections 4.3 and 5), absent from `src/`.  The ticket is
re-read from the current list and re-checked to still be
`ELIGIBLE_FOR_ENTRY` before demoting; then renumbered per the protocol and
transitioned to `REMOTE_WAITING` with actor system and reason
"grace period expired", clearing `eligibleForEntryAt`. -/
def demoteById (tickets : List Ticket) (id : Nat) (now : Nat) : List Ticket :=
  match tickets.find? (fun t => t.id = id) with
  | none => tickets
  | some t =>
    if t.status = TicketStatus.ELIGIBLE_FOR_ENTRY then
      (demoteRenumber tickets t).map (fun u =>
        if u.id = id then
          { u with
              status := TicketStatus.REMOTE_WAITING
            , eligibleForEntryAt := none
            , statusHistory :=
                addStatusTransition t t.status TicketStatus.REMOTE_WAITING
                  Actor.system (some ("grace period expired")) now }
        else u)
    else tickets

/-- Modelled from the spec: the expiry test of the GracePeriodMonitor (spec
section 4.3): status `ELIGIBLE_FOR_ENTRY` and
`now - eligibleForEntryAt > gracePeriodSeconds`, where the configured
`gracePeriodMinutes` yields `gracePeriodMinutes * 60` seconds
(`src/unnamed/part_006` line 15) and timestamps are milliseconds. -/
def isExpired (cfg : BranchConfig) (now : Nat) (t : Ticket) : Bool :=
  decide (t.status = TicketStatus.ELIGIBLE_FOR_ENTRY) &&
  match t.eligibleForEntryAt with
  | some t0 => decide (now - t0 > cfg.gracePeriodMinutes * 60 * 1000)
  | none => false

/-- Modelled from the spec: one demotion pass of the sweep — every expired
`ELIGIBLE_FOR_ENTRY` ticket of the branch is demoted in turn. -/
def demotePass (cfg : BranchConfig) (tickets : List Ticket) (branchId : String)
    (now : Nat) : List Ticket :=
  let expiredIds :=
    (tickets.filter (fun t => decide (t.branchId = branchId) && isExpired cfg now t)).map
      (fun t => t.id)
  expiredIds.foldl (fun acc id => demoteById acc id now) tickets

/-- Modelled from the spec: the `Tick(now)` sweep of the GracePeriodMonitor
(`checkGracePeriodExpiry`, referenced from `src/unnamed/part_006` line 43
but not present under `src/`): demote every expired eligible ticket of the
branch (steps 1-3), then `compact` (step 4). -/
def checkGracePeriodExpiry (cfg : BranchConfig) (tickets : List Ticket)
    (branchId : String) (now : Nat) : List Ticket :=
  compact (demotePass cfg tickets branchId now) branchId

/-- The (id, queueNumber) sequence of a ticket list: the frame no operation
but a join may change. -/
def idQueuePairs (tickets : List Ticket) : List (Nat × Nat) :=
  tickets.map (fun t => (t.id, t.queueNumber))

/-- The identity frame of a ticket list: id, branch and queue number of
every ticket, in order. -/
def frameTriple (tickets : List Ticket) : List (Nat × String × Nat) :=
  tickets.map (fun t => (t.id, t.branchId, t.queueNumber))

/-- One-predicate form of the occupancy count: a ticket counts toward the
occupancy of branch `b` when it is in the branch and `IN_BUILDING`, or —
unless `excludeInServiceFromCapacity` — `IN_SERVICE` or `IN_TRANSACTION`. -/
def countsTowardOccupancy (cfg : BranchConfig) (b : String) (t : Ticket) : Bool :=
  decide (t.branchId = b) &&
    (decide (t.status = TicketStatus.IN_BUILDING) ||
      (!cfg.excludeInServiceFromCapacity &&
        (decide (t.status = TicketStatus.IN_SERVICE) ||
          decide (t.status = TicketStatus.IN_TRANSACTION))))

/-! ### Concrete states used by witnesses and counterexamples -/

/-- Concrete branch used by hand-built witness states. -/
def bCfg : BranchConfig :=
  { id := "b", avgTransactionTime := 1, gracePeriodMinutes := 10
  , isPaused := false, maxInBuilding := 1, excludeInServiceFromCapacity := false }

/-- Fill the Vieux Fort branch: ten joins, nine of them marked entered
(each admission passes the gate), then the tenth moved straight to
IN_SERVICE, which the code does not gate. -/
def c1Cmds : List Cmd :=
  (List.range 10).map (fun i => Cmd.join vfb i) ++
  (List.range 9).map (fun i =>
    Cmd.updateStatus i TicketStatus.IN_BUILDING Actor.reception none (100 + i)) ++
  [Cmd.updateStatus 9 TicketStatus.IN_SERVICE Actor.teller none 200]

/-- The state reached by `c1Cmds`. -/
def c1S : AppState := run (initState vieuxFortBranch) c1Cmds

/-- Fill the Vieux Fort branch to capacity with a tenth ticket waiting. -/
def c3Cmds : List Cmd :=
  (List.range 10).map (fun i => Cmd.join vfb i) ++
  (List.range 9).map (fun i =>
    Cmd.updateStatus i TicketStatus.IN_BUILDING Actor.reception none (100 + i))

/-- The state reached by `c3Cmds`: occupancy 9/9, ticket 9 REMOTE_WAITING. -/
def c3S : AppState := run (initState vieuxFortBranch) c3Cmds

/-- A one-seat branch already full, with a waiting ticket: promotion input. -/
def c3wS : AppState :=
  { tickets :=
      [ { id := 0, queueNumber := 1, status := TicketStatus.IN_BUILDING
        , branchId := "b", joinedAt := 0 }
      , { id := 1, queueNumber := 2, status := TicketStatus.REMOTE_WAITING
        , branchId := "b", joinedAt := 0 } ]
  , cfg := bCfg, nextId := 2, tellerId := "T" }

/-- The waiting ticket of `c3wS`. -/
def c3wC : Ticket :=
  { id := 1, queueNumber := 2, status := TicketStatus.REMOTE_WAITING
  , branchId := "b", joinedAt := 0 }

/-- Two tickets join, the first goes straight to IN_SERVICE and is then
SERVED; the freed room is never offered to the second. -/
def c6Cmds : List Cmd :=
  [ Cmd.join vfb 0, Cmd.join vfb 1
  , Cmd.updateStatus 0 TicketStatus.IN_SERVICE Actor.teller none 10
  , Cmd.updateStatus 0 TicketStatus.SERVED Actor.teller none 20 ]

/-- The state reached by `c6Cmds`. -/
def c6S : AppState := run (initState vieuxFortBranch) c6Cmds

/-- An IN_BUILDING ticket plus a waiting one: input for the amended C6. -/
def c6wS : AppState :=
  { tickets :=
      [ { id := 0, queueNumber := 1, status := TicketStatus.IN_BUILDING
        , branchId := "b", joinedAt := 0 }
      , { id := 1, queueNumber := 2, status := TicketStatus.REMOTE_WAITING
        , branchId := "b", joinedAt := 0 } ]
  , cfg := bCfg, nextId := 2, tellerId := "T" }

/-- The IN_BUILDING ticket of `c6wS`. -/
def c6wT : Ticket :=
  { id := 0, queueNumber := 1, status := TicketStatus.IN_BUILDING
  , branchId := "b", joinedAt := 0 }

/-- The waiting ticket of `c6wS`. -/
def c6wC : Ticket :=
  { id := 1, queueNumber := 2, status := TicketStatus.REMOTE_WAITING
  , branchId := "b", joinedAt := 0 }

/-- Join, serve the only ticket, then join again: the second join sees a
branch whose ONLY ticket is terminal. -/
def c9Cmds : List Cmd :=
  [ Cmd.join vfb 0, Cmd.updateStatus 0 TicketStatus.SERVED Actor.teller none 10
  , Cmd.join vfb 20 ]

/-- The state just before the second join of `c9Cmds`. -/
def c9Pre : AppState :=
  run (initState vieuxFortBranch)
    [ Cmd.join vfb 0, Cmd.updateStatus 0 TicketStatus.SERVED Actor.teller none 10 ]

/-- The state reached by `c9Cmds`. -/
def c9S : AppState := run (initState vieuxFortBranch) c9Cmds

/-- A two-join reachable state for the C7 witness. -/
def c7wS : AppState :=
  run (initState vieuxFortBranch) [Cmd.join vfb 0, Cmd.join vfb 3]

/-- C4 witness: the eligible ticket awaiting confirmation (spec scenario B:
queue number 5, eligible at t0 = 1000, grace 600 s). -/
def c4wT : Ticket :=
  { id := 0, queueNumber := 5, status := TicketStatus.ELIGIBLE_FOR_ENTRY
  , branchId := "b", joinedAt := 0, eligibleForEntryAt := some 1000 }

/-- C4 witness: the active ticket that holds queue number 9 = 5 + 4. -/
def c4wU : Ticket :=
  { id := 1, queueNumber := 9, status := TicketStatus.REMOTE_WAITING
  , branchId := "b", joinedAt := 0 }

/-- C4 witness ticket list. -/
def c4wTickets : List Ticket := [c4wT, c4wU]

/-- The ticket list produced by admitting the single ticket of `c5S`. -/
def c1wTs : List Ticket :=
  [ { id := 0, queueNumber := 1, status := TicketStatus.IN_BUILDING
    , branchId := "b", joinedAt := 0, enteredBuildingAt := some 5
    , statusHistory :=
        [{ ticketId := 0, fromStatus := TicketStatus.REMOTE_WAITING
         , toStatus := TicketStatus.IN_BUILDING, timestamp := 5
         , triggeredBy := Actor.reception, reason := none }] } ]

/-- A full one-seat branch: one ticket inside, one eligible outside. -/
def c2S : AppState :=
  { tickets :=
      [ { id := 0, queueNumber := 1, status := TicketStatus.IN_BUILDING
        , branchId := "b", joinedAt := 0 }
      , { id := 1, queueNumber := 2, status := TicketStatus.ELIGIBLE_FOR_ENTRY
        , branchId := "b", joinedAt := 0 } ]
  , cfg := bCfg, nextId := 2, tellerId := "T" }

/-- The ticket of `c2S` requesting entry. -/
def c2T : Ticket :=
  { id := 1, queueNumber := 2, status := TicketStatus.ELIGIBLE_FOR_ENTRY
  , branchId := "b", joinedAt := 0 }

/-- A branch state with a single REMOTE_WAITING ticket. -/
def c5S : AppState :=
  { tickets :=
      [ { id := 0, queueNumber := 1, status := TicketStatus.REMOTE_WAITING
        , branchId := "b", joinedAt := 0 } ]
  , cfg := bCfg, nextId := 1, tellerId := "T" }

/-- The single ticket of `c5S`. -/
def c5T : Ticket :=
  { id := 0, queueNumber := 1, status := TicketStatus.REMOTE_WAITING
  , branchId := "b", joinedAt := 0 }

/-- A branch state with a single SERVED (terminal) ticket. -/
def c8S : AppState :=
  { tickets :=
      [ { id := 0, queueNumber := 1, status := TicketStatus.SERVED
        , branchId := "b", joinedAt := 0 } ]
  , cfg := bCfg, nextId := 1, tellerId := "T" }

/-- The single ticket of `c8S`. -/
def c8T : Ticket :=
  { id := 0, queueNumber := 1, status := TicketStatus.SERVED
  , branchId := "b", joinedAt := 0 }

/-! ### Helper lemmas -/

/-- `find?` by id commutes with mapping an id-preserving function. -/
theorem find?_map_id (l : List Ticket) (f : Ticket → Ticket) (id : Nat)
    (h : ∀ t, (f t).id = t.id) :
    (l.map f).find? (fun t => t.id = id) = (l.find? (fun t => t.id = id)).map f := by
  induction l with
  | nil => rfl
  | cons a l ih =>
    simp only [List.map_cons, List.find?_cons, h a]
    by_cases ha : a.id = id
    · simp [ha]
    · simp [ha, ih]

/-- With pairwise-distinct ids, `find?` by the id of a member returns that
member. -/
theorem find?_of_nodup_mem (l : List Ticket) (t : Ticket)
    (hnd : (l.map (fun u => u.id)).Nodup) (hmem : t ∈ l) :
    l.find? (fun u => u.id = t.id) = some t := by
  induction l with
  | nil => cases hmem
  | cons a l ih =>
    simp only [List.map_cons, List.nodup_cons] at hnd
    rcases List.mem_cons.mp hmem with rfl | hmem
    · simp [List.find?_cons]
    · by_cases ha : a.id = t.id
      · exact absurd (ha ▸ List.mem_map_of_mem (fun u => u.id) hmem) hnd.1
      · simpa [List.find?_cons, ha] using ih hnd.2 hmem

/-- A `find?` on the id of a member always returns something. -/
theorem find?_id_isSome (l : List Ticket) (c : Ticket) (hc : c ∈ l) :
    ∃ u, l.find? (fun t => t.id = c.id) = some u := by
  induction l with
  | nil => cases hc
  | cons a l ih =>
    by_cases ha : a.id = c.id
    · exact ⟨a, by simp [List.find?_cons, ha]⟩
    · rcases List.mem_cons.mp hc with rfl | hc2
      · exact absurd rfl ha
      · rcases ih hc2 with ⟨u, hu⟩
        exact ⟨u, by simp [List.find?_cons, ha, hu]⟩

/-- With pairwise-distinct ids, two members sharing an id are equal. -/
theorem eq_of_nodup_id (l : List Ticket) (a b : Ticket)
    (hnd : (l.map (fun u => u.id)).Nodup) (ha : a ∈ l) (hb : b ∈ l)
    (hid : a.id = b.id) : a = b := by
  have := find?_of_nodup_mem l a hnd ha
  have hb' := find?_of_nodup_mem l b hnd hb
  rw [hid] at this
  rw [this] at hb'
  exact Option.some.inj hb'

/-- `firstByQueueNumber` returns a member of the list. -/
theorem firstByQueueNumber_mem (l : List Ticket) (c : Ticket)
    (h : firstByQueueNumber l = some c) : c ∈ l := by
  induction l with
  | nil => cases h
  | cons a l ih =>
    simp only [firstByQueueNumber] at h
    cases hl : firstByQueueNumber l with
    | none =>
      simp only [hl] at h
      exact (Option.some.inj h) ▸ List.mem_cons_self a l
    | some u =>
      simp only [hl] at h
      by_cases hle : a.queueNumber ≤ u.queueNumber
      · simp only [if_pos hle] at h
        exact (Option.some.inj h) ▸ List.mem_cons_self a l
      · simp only [if_neg hle] at h
        exact List.mem_cons_of_mem a (ih ((Option.some.inj h) ▸ hl))

/-- The field effect of the merged `updates` of `updateTicketStatus`: the
status becomes the target and id, queue number and branch are untouched. -/
theorem applyStatusUpdate_fields (ticket : Ticket) (fs st : TicketStatus)
    (trig : Actor) (r : Option String) (tid : String) (now : Nat) (t : Ticket) :
    (applyStatusUpdate ticket fs st trig r tid now t).status = st ∧
    (applyStatusUpdate ticket fs st trig r tid now t).id = t.id ∧
    (applyStatusUpdate ticket fs st trig r tid now t).queueNumber = t.queueNumber ∧
    (applyStatusUpdate ticket fs st trig r tid now t).branchId = t.branchId := by
  simp only [applyStatusUpdate]
  repeat' split
  all_goals simp

/-- The field effect of a `TicketPatch` merge: id, queue number, branch and
status-if-unpatched are untouched. -/
theorem applyPatch_fields (patch : TicketPatch)
    (history : Option (List StatusTransition)) (t : Ticket) :
    (applyPatch patch history t).id = t.id ∧
    (applyPatch patch history t).queueNumber = t.queueNumber ∧
    (applyPatch patch history t).branchId = t.branchId := by
  simp only [applyPatch]
  repeat' split
  all_goals simp

/-- Mapping a function that preserves branch and queue number preserves the
per-branch queue-number list. -/
theorem branchQueueNums_map (l : List Ticket) (f : Ticket → Ticket) (b : String)
    (hb : ∀ t, (f t).branchId = t.branchId)
    (hq : ∀ t, (f t).queueNumber = t.queueNumber) :
    branchQueueNums (l.map f) b = branchQueueNums l b := by
  induction l with
  | nil => rfl
  | cons a l ih =>
    simp only [branchQueueNums] at ih
    simp only [branchQueueNums, List.map_cons, List.filter_cons, hb a]
    by_cases hab : a.branchId = b
    · simp [hab, hq a, ih]
    · simp [hab, ih]

/-- The ticket returned by a `find?` on an id carries that id. -/
theorem id_of_find? (l : List Ticket) (i : Nat) (t0 : Ticket)
    (h : l.find? (fun t => t.id = i) = some t0) : t0.id = i := by
  have h2 := List.find?_some h
  exact of_decide_eq_true h2

/-- Membership in the waiting pool of a branch gives membership in the
underlying list and a waiting status. -/
theorem mem_remoteWaitingIn (l : List Ticket) (b : String) (c : Ticket)
    (h : c ∈ remoteWaitingIn l b) :
    c ∈ l ∧ (c.status = TicketStatus.REMOTE_WAITING ∨ c.status = TicketStatus.WAITING) := by
  unfold remoteWaitingIn at h
  have h1 := List.mem_filter.mp h
  have h2 := List.mem_filter.mp h1.1
  exact ⟨h2.1, by simpa using h1.2⟩

/-- Status of the ticket found by id after the merged update of
`updateTicketStatus` is the requested target. -/
theorem statusOf_updated (l : List Ticket) (id : Nat) (t0 : Ticket)
    (hfind : l.find? (fun t => t.id = id) = some t0)
    (ticket : Ticket) (fs st : TicketStatus) (trig : Actor) (r : Option String)
    (tid : String) (now : Nat) :
    statusOf (l.map (fun t =>
      if t.id = id then applyStatusUpdate ticket fs st trig r tid now t else t)) id =
      some st := by
  have hid0 : t0.id = id := id_of_find? l id t0 hfind
  unfold statusOf
  rw [find?_map_id]
  · rw [hfind]
    simp [if_pos hid0, (applyStatusUpdate_fields ticket fs st trig r tid now t0).1]
  · intro t
    by_cases h : t.id = id
    · simp [h, (applyStatusUpdate_fields ticket fs st trig r tid now t).2.1]
    · simp [h]

/-- The promotion step does not change the status of a ticket that is not
the selected candidate. -/
theorem statusOf_promoteStep_other (cfg : BranchConfig) (sel cur : List Ticket)
    (b : String) (now : Nat) (id : Nat)
    (h : ∀ c, firstByQueueNumber (remoteWaitingIn sel b) = some c → c.id ≠ id) :
    statusOf (promoteStep cfg sel cur b now) id = statusOf cur id := by
  unfold promoteStep
  cases hc : firstByQueueNumber (remoteWaitingIn sel b) with
  | none => rfl
  | some c =>
    have hcid := h c hc
    simp only
    unfold statusOf
    rw [find?_map_id]
    · cases hfind : cur.find? (fun t => t.id = id) with
      | none => rfl
      | some u =>
        have huid : u.id = id := id_of_find? cur id u hfind
        have hne : ¬ (u.id = c.id) := fun hh => hcid (by rw [← hh, huid])
        simp [hne]
    · intro t
      by_cases ht : t.id = c.id <;> simp [ht]

/-- The promotion step marks the selected candidate `ELIGIBLE_FOR_ENTRY`
(whenever its id is present in the written list). -/
theorem statusOf_promoteStep_candidate (cfg : BranchConfig) (sel cur : List Ticket)
    (b : String) (now : Nat) (c : Ticket)
    (hc : firstByQueueNumber (remoteWaitingIn sel b) = some c)
    (u : Ticket) (hu : cur.find? (fun t => t.id = c.id) = some u) :
    statusOf (promoteStep cfg sel cur b now) c.id =
      some TicketStatus.ELIGIBLE_FOR_ENTRY := by
  unfold promoteStep
  simp only [hc]
  unfold statusOf
  rw [find?_map_id]
  · rw [hu]
    have huid : u.id = c.id := id_of_find? cur c.id u hu
    simp [huid]
  · intro t
    by_cases ht : t.id = c.id <;> simp [ht]

/-- Every member of a list of naturals is bounded by `natMaxList`. -/
theorem le_natMaxList (l : List Nat) (x : Nat) (hx : x ∈ l) : x ≤ natMaxList l := by
  have key : ∀ (l : List Nat) (a : Nat), a ≤ l.foldl Nat.max a ∧
      ∀ x ∈ l, x ≤ l.foldl Nat.max a := by
    intro l
    induction l with
    | nil => intro a; exact ⟨le_refl a, by intro x hx; cases hx⟩
    | cons c l ih =>
      intro a
      refine ⟨le_trans (Nat.le_max_left a c) (ih (Nat.max a c)).1, ?_⟩
      intro x hx
      rcases List.mem_cons.mp hx with rfl | hx
      · exact le_trans (Nat.le_max_right a x) (ih (Nat.max a x)).1
      · exact (ih (Nat.max a c)).2 x hx
  exact (key l 0).2 x hx

/-- Mapping a function that preserves id, branch and queue number preserves
the identity frame. -/
theorem frameTriple_map (l : List Ticket) (f : Ticket → Ticket)
    (hid : ∀ t, (f t).id = t.id) (hb : ∀ t, (f t).branchId = t.branchId)
    (hq : ∀ t, (f t).queueNumber = t.queueNumber) :
    frameTriple (l.map f) = frameTriple l := by
  unfold frameTriple
  rw [List.map_map]
  have hfun : ((fun t : Ticket => (t.id, t.branchId, t.queueNumber)) ∘ f) =
      (fun t : Ticket => (t.id, t.branchId, t.queueNumber)) :=
    funext fun t => by simp [Function.comp, hid t, hb t, hq t]
  rw [hfun]

/-- `branchQueueNums` is determined by the identity frame. -/
theorem branchQueueNums_eq_of_frame (l : List Ticket) (b : String) :
    branchQueueNums l b =
      ((frameTriple l).filter (fun x => x.2.1 = b)).map (fun x => x.2.2) := by
  induction l with
  | nil => rfl
  | cons a t ih =>
    simp only [branchQueueNums, frameTriple, List.map_cons, List.filter_cons] at ih ⊢
    by_cases hab : a.branchId = b
    · simp only [hab, decide_True, List.map_cons]
      exact congrArg _ ih
    · simp only [hab, decide_False]
      exact ih

/-- `idQueuePairs` is determined by the identity frame. -/
theorem idQueuePairs_eq_of_frame (l : List Ticket) :
    idQueuePairs l = (frameTriple l).map (fun x => (x.1, x.2.2)) := by
  unfold idQueuePairs frameTriple
  rw [List.map_map]
  rfl

/-- The promotion step only touches status, eligibility stamp and audit
history: the identity frame of the written list is unchanged. -/
theorem frameTriple_promoteStep (cfg : BranchConfig) (sel cur : List Ticket)
    (b : String) (now : Nat) :
    frameTriple (promoteStep cfg sel cur b now) = frameTriple cur := by
  unfold promoteStep
  cases hc : firstByQueueNumber (remoteWaitingIn sel b) with
  | none => rfl
  | some c =>
    simp only
    apply frameTriple_map <;> intro t <;> by_cases h : t.id = c.id <;> simp [h]

/-- A committed `updateTicketStatus` leaves the identity frame unchanged. -/
theorem frameTriple_updateTicketStatus (s : AppState) (id : Nat)
    (st : TicketStatus) (trig : Actor) (r : Option String) (now : Nat)
    (ts : List Ticket)
    (h : updateTicketStatus s id st trig r now = Except.ok ts) :
    frameTriple ts = frameTriple s.tickets := by
  unfold updateTicketStatus at h
  cases hf : s.tickets.find? (fun t => t.id = id) with
  | none =>
    simp only [hf] at h
    exact Except.noConfusion h
  | some ticket =>
    simp only [hf] at h
    have hmap : frameTriple (s.tickets.map (fun t =>
        if t.id = id then
          applyStatusUpdate ticket ticket.status st trig r s.tellerId now t
        else t)) = frameTriple s.tickets := by
      apply frameTriple_map <;> intro t <;> by_cases hti : t.id = id
      · simp [hti, (applyStatusUpdate_fields ticket ticket.status st trig r s.tellerId now t).2.1]
      · simp [hti]
      · simp [hti, (applyStatusUpdate_fields ticket ticket.status st trig r s.tellerId now t).2.2.2]
      · simp [hti]
      · simp [hti, (applyStatusUpdate_fields ticket ticket.status st trig r s.tellerId now t).2.2.1]
      · simp [hti]
    by_cases hg : st = TicketStatus.IN_BUILDING ∧
        getInBuildingCount s ticket.branchId ≥ s.cfg.maxInBuilding
    · rw [if_pos hg] at h
      exact Except.noConfusion h
    · rw [if_neg hg] at h
      by_cases hp : ticket.status = TicketStatus.IN_BUILDING ∧ isLeavingBuilding st = true
      · rw [if_pos hp] at h
        injection h with h2
        rw [← h2, frameTriple_promoteStep]
        exact hmap
      · rw [if_neg hp] at h
        injection h with h2
        rw [← h2]
        exact hmap

/-- `runUpdateStatus` leaves the identity frame unchanged. -/
theorem frameTriple_runUpdateStatus (s : AppState) (id : Nat)
    (st : TicketStatus) (trig : Actor) (r : Option String) (now : Nat) :
    frameTriple (runUpdateStatus s id st trig r now).tickets =
      frameTriple s.tickets := by
  unfold runUpdateStatus
  cases hres : updateTicketStatus s id st trig r now with
  | error e => rfl
  | ok ts => exact frameTriple_updateTicketStatus s id st trig r now ts hres

/-- `updateTicket` leaves the identity frame unchanged (its patches never
carry a queue number, branch or id). -/
theorem frameTriple_updateTicket (s : AppState) (id : Nat)
    (patch : TicketPatch) (now : Nat) :
    frameTriple (updateTicket s id patch now) = frameTriple s.tickets := by
  unfold updateTicket
  cases hf : s.tickets.find? (fun t => t.id = id) with
  | none => rfl
  | some ticket =>
    simp only
    have hmap : ∀ hist, frameTriple (s.tickets.map (fun t =>
        if t.id = id then applyPatch patch hist t else t)) = frameTriple s.tickets := by
      intro hist
      apply frameTriple_map <;> intro t <;> by_cases hti : t.id = id
      · simp [hti, (applyPatch_fields patch hist t).1]
      · simp [hti]
      · simp [hti, (applyPatch_fields patch hist t).2.2]
      · simp [hti]
      · simp [hti, (applyPatch_fields patch hist t).2.1]
      · simp [hti]
    cases hps : patch.status with
    | none => simp only [hps]; exact hmap _
    | some st =>
      simp only [hps]
      by_cases hcond : ticket.status = TicketStatus.IN_BUILDING ∧ st ≠ TicketStatus.IN_BUILDING
      · rw [if_pos hcond, frameTriple_promoteStep]
        exact hmap _
      · rw [if_neg hcond]
        exact hmap _

/-- `submitFeedback` leaves the identity frame unchanged. -/
theorem frameTriple_submitFeedback (s : AppState) (id stars : Nat) :
    frameTriple (submitFeedback s id stars) = frameTriple s.tickets := by
  unfold submitFeedback
  apply frameTriple_map <;> intro t <;> by_cases h : t.id = id <;> simp [h]

/-- Every command other than a join leaves the identity frame — ids,
branches and queue numbers of all tickets, in order — unchanged. -/
theorem frameTriple_step_nonjoin (s : AppState) (c : Cmd)
    (h : ∀ b now, c ≠ Cmd.join b now) :
    frameTriple (step s c).tickets = frameTriple s.tickets := by
  cases c with
  | join b now => exact absurd rfl (h b now)
  | updateStatus id st trig r now => exact frameTriple_runUpdateStatus s id st trig r now
  | update id patch now => exact frameTriple_updateTicket s id patch now
  | promote b now => exact frameTriple_promoteStep s.cfg s.tickets s.tickets b now
  | flagNoShow id now =>
    have h1 := frameTriple_runUpdateStatus
      { s with tickets := updateTicket s id { isNoShow := some true } now }
      id TicketStatus.NOT_HERE Actor.reception none now
    have h2 := frameTriple_updateTicket s id { isNoShow := some true } now
    exact h1.trans h2
  | feedback id stars => exact frameTriple_submitFeedback s id stars

/-! ### Claim C2 -/

/-- C2: a request to transition a ticket to IN_BUILDING issued when the
occupancy of its branch equals `maxInBuilding` hits the capacity gate
(`currentCount >= maxCapacity`): the refusal outcome `AtCapacity` is
returned and the operation is atomic on failure — the whole state (hence
the ticket's status and its `statusHistory`) is unchanged. -/
theorem C2_atCapacity_atomic (s : AppState) (id : Nat) (trig : Actor)
    (r : Option String) (now : Nat) (t0 : Ticket)
    (hfind : s.tickets.find? (fun t => t.id = id) = some t0)
    (hocc : getInBuildingCount s t0.branchId = s.cfg.maxInBuilding) :
    updateTicketStatus s id TicketStatus.IN_BUILDING trig r now =
      Except.error UpdateError.AtCapacity ∧
    step s (Cmd.updateStatus id TicketStatus.IN_BUILDING trig r now) = s := by
  have h1 : updateTicketStatus s id TicketStatus.IN_BUILDING trig r now =
      Except.error UpdateError.AtCapacity := by
    unfold updateTicketStatus
    simp only [hfind]
    rw [if_pos]
    refine ⟨?_, le_of_eq hocc.symm⟩
    trivial
  exact ⟨h1, by simp [step, runUpdateStatus, h1]⟩

/-- Witness for C2 at a concrete full branch. -/
theorem C2_atCapacity_atomic_witness :
    updateTicketStatus c2S 1 TicketStatus.IN_BUILDING Actor.reception none 5 =
      Except.error UpdateError.AtCapacity ∧
    step c2S (Cmd.updateStatus 1 TicketStatus.IN_BUILDING Actor.reception none 5) = c2S :=
  C2_atCapacity_atomic c2S 1 Actor.reception none 5 c2T (by decide) (by decide)

/-! ### Claim C5 -/

/-- C5 counterexample: the pair REMOTE_WAITING -> IN_SERVICE is not in the
transition table of spec section 4.1, yet `updateTicketStatus` applies it:
the call succeeds (no `InvalidTransition` is ever produced — the code has no
such outcome) and the ticket's status changes to IN_SERVICE instead of
being left unchanged. -/
theorem C5_counterexample :
    statusOf c5S.tickets 0 = some TicketStatus.REMOTE_WAITING ∧
    (updateTicketStatus c5S 0 TicketStatus.IN_SERVICE Actor.teller none 5).isOk = true ∧
    statusOf (runUpdateStatus c5S 0 TicketStatus.IN_SERVICE Actor.teller none 5).tickets 0 =
      some TicketStatus.IN_SERVICE := by
  decide

/-- C5 amended: `updateTicketStatus` performs no transition-table
validation and has no InvalidTransition outcome: for a state with
pairwise-distinct ticket ids, any requested target other than IN_BUILDING
is applied unconditionally to an existing ticket — the call returns ok and
the ticket's status becomes the target; only IN_BUILDING is gated (and only
by capacity). -/
theorem C5_amended_no_validation (s : AppState) (id : Nat)
    (target : TicketStatus) (trig : Actor) (r : Option String) (now : Nat)
    (t0 : Ticket)
    (hnd : (s.tickets.map (fun u => u.id)).Nodup)
    (hfind : s.tickets.find? (fun t => t.id = id) = some t0)
    (htgt : target ≠ TicketStatus.IN_BUILDING) :
    ∃ ts, updateTicketStatus s id target trig r now = Except.ok ts ∧
      statusOf ts id = some target := by
  have hid0 : t0.id = id := id_of_find? s.tickets id t0 hfind
  have ht0mem : t0 ∈ s.tickets := List.mem_of_find?_eq_some hfind
  unfold updateTicketStatus
  simp only [hfind]
  rw [if_neg (fun hc => htgt hc.1)]
  by_cases hp : t0.status = TicketStatus.IN_BUILDING ∧ isLeavingBuilding target = true
  · rw [if_pos hp]
    refine ⟨_, rfl, ?_⟩
    rw [statusOf_promoteStep_other]
    · exact statusOf_updated s.tickets id t0 hfind t0 t0.status target trig r s.tellerId now
    · intro c hc hcid
      have hcmem := mem_remoteWaitingIn _ _ _ (firstByQueueNumber_mem _ _ hc)
      have hceq : c = t0 :=
        eq_of_nodup_id s.tickets c t0 hnd hcmem.1 ht0mem (hcid.trans hid0.symm)
      rcases hcmem.2 with h | h <;> rw [hceq, hp.1] at h <;> cases h
  · rw [if_neg hp]
    exact ⟨_, rfl, statusOf_updated s.tickets id t0 hfind t0 t0.status target trig r s.tellerId now⟩

/-- Witness for the amended C5 at a concrete input (the invalid pair
REMOTE_WAITING -> IN_SERVICE is applied). -/
theorem C5_amended_no_validation_witness :
    ∃ ts, updateTicketStatus c5S 0 TicketStatus.IN_SERVICE Actor.teller none 5 =
      Except.ok ts ∧ statusOf ts 0 = some TicketStatus.IN_SERVICE :=
  C5_amended_no_validation c5S 0 TicketStatus.IN_SERVICE Actor.teller none 5 c5T
    (by decide) (by decide) (by decide)

/-! ### Claim C8 -/

/-- C8 counterexample: a SERVED ticket is not immutable and a transition
request on it is not rejected as StaleOperation: `updateTicketStatus`
happily moves it back to REMOTE_WAITING (the code has no terminal-status
guard and no StaleOperation outcome). -/
theorem C8_counterexample :
    statusOf c8S.tickets 0 = some TicketStatus.SERVED ∧
    (updateTicketStatus c8S 0 TicketStatus.REMOTE_WAITING Actor.reception none 5).isOk = true ∧
    statusOf (runUpdateStatus c8S 0 TicketStatus.REMOTE_WAITING Actor.reception none 5).tickets 0 =
      some TicketStatus.REMOTE_WAITING := by
  decide

/-- C8 amended: no terminal-status guard exists: a ticket whose status is
terminal (SERVED/COMPLETED/REMOVED) is transitioned by `updateTicketStatus`
like any other ticket — any target other than IN_BUILDING is applied and
the call returns ok; no StaleOperation rejection exists anywhere in the
code (only a feedback rating additionally attaches via `submitFeedback`). -/
theorem C8_amended_terminal_mutable (s : AppState) (id : Nat)
    (target : TicketStatus) (trig : Actor) (r : Option String) (now : Nat)
    (t0 : Ticket)
    (hfind : s.tickets.find? (fun t => t.id = id) = some t0)
    (hterm : isTerminal t0.status = true)
    (htgt : target ≠ TicketStatus.IN_BUILDING) :
    ∃ ts, updateTicketStatus s id target trig r now = Except.ok ts ∧
      statusOf ts id = some target := by
  unfold updateTicketStatus
  simp only [hfind]
  rw [if_neg (fun hc => htgt hc.1)]
  have hnb : ¬ (t0.status = TicketStatus.IN_BUILDING ∧ isLeavingBuilding target = true) := by
    intro hc
    rw [hc.1] at hterm
    cases hterm
  rw [if_neg hnb]
  exact ⟨_, rfl, statusOf_updated s.tickets id t0 hfind t0 t0.status target trig r s.tellerId now⟩

/-- Witness for the amended C8 at a concrete terminal ticket. -/
theorem C8_amended_terminal_mutable_witness :
    ∃ ts, updateTicketStatus c8S 0 TicketStatus.REMOTE_WAITING Actor.reception none 5 =
      Except.ok ts ∧ statusOf ts 0 = some TicketStatus.REMOTE_WAITING :=
  C8_amended_terminal_mutable c8S 0 TicketStatus.REMOTE_WAITING Actor.reception none 5 c8T
    (by decide) (by decide) (by decide)

/-! ### Claim C10 -/

/-- C10: every operation the code exposes apart from a join — a status
transition (`updateTicketStatus`), a generic update with a status or note
patch (`updateTicket`), a promotion (`promoteNextRemoteCustomer`),
`flagNoShow` and `submitFeedback` — leaves the (id, queueNumber) sequence
of the ticket list unchanged: a ticket's queue number, assigned at join,
never changes afterwards. -/
theorem C10_queueNumbers_never_change :
    (∀ s id st trig r now,
      idQueuePairs (step s (Cmd.updateStatus id st trig r now)).tickets =
        idQueuePairs s.tickets) ∧
    (∀ s id patch now,
      idQueuePairs (step s (Cmd.update id patch now)).tickets =
        idQueuePairs s.tickets) ∧
    (∀ s b now,
      idQueuePairs (step s (Cmd.promote b now)).tickets = idQueuePairs s.tickets) ∧
    (∀ s id now,
      idQueuePairs (step s (Cmd.flagNoShow id now)).tickets =
        idQueuePairs s.tickets) ∧
    (∀ s id stars,
      idQueuePairs (step s (Cmd.feedback id stars)).tickets =
        idQueuePairs s.tickets) := by
  refine ⟨?_, ?_, ?_, ?_, ?_⟩ <;> intros <;>
    rw [idQueuePairs_eq_of_frame, idQueuePairs_eq_of_frame,
      frameTriple_step_nonjoin _ _ (fun b now h => Cmd.noConfusion h)]

/-! ### Claim C7 -/

/-- Normalisation of the `addTicket` queue-number choice: the branch-empty
case coincides with `max (default 0) + 1`. -/
theorem addTicket_nextNum (l : List Ticket) (b : String) :
    (if (l.filter (fun t => t.branchId = b)).length > 0 then
      natMaxList ((l.filter (fun t => t.branchId = b)).map (fun t => t.queueNumber)) + 1
     else 1) = natMaxList (branchQueueNums l b) + 1 := by
  by_cases h : (l.filter (fun t => t.branchId = b)).length > 0
  · rw [if_pos h]
    rfl
  · rw [if_neg h]
    have he : l.filter (fun t => t.branchId = b) = [] := by
      cases hl : l.filter (fun t => t.branchId = b) with
      | nil => rfl
      | cons x xs => rw [hl] at h; exact absurd (by simp) h
    unfold branchQueueNums
    rw [he]
    rfl

/-- The per-branch queue numbers after a join: unchanged for other
branches, extended with `max + 1` for the joined branch. -/
theorem branchQueueNums_addTicket (s : AppState) (bj : String) (now : Nat)
    (b : String) :
    branchQueueNums (addTicket s bj now).tickets b =
      branchQueueNums s.tickets b ++
        (if bj = b then [natMaxList (branchQueueNums s.tickets bj) + 1] else []) := by
  show branchQueueNums (s.tickets ++ [_]) b = _
  unfold branchQueueNums
  rw [List.filter_append, List.map_append]
  congr 1
  by_cases hb : bj = b
  · subst hb
    rw [if_pos rfl, List.filter_cons, if_pos (by simp), List.filter_nil,
      List.map_cons, List.map_nil]
    rw [addTicket_nextNum]
    rfl
  · rw [if_neg hb, List.filter_cons, if_neg (by simpa using hb), List.filter_nil,
      List.map_nil]

/-- Per-branch distinctness is carried across a frame-preserving command. -/
theorem branch_nodup_of_frame (s : AppState) (c : Cmd)
    (hframe : frameTriple (step s c).tickets = frameTriple s.tickets)
    (h : ∀ b, (branchQueueNums s.tickets b).Nodup) (b : String) :
    (branchQueueNums (step s c).tickets b).Nodup := by
  have heq : branchQueueNums (step s c).tickets b = branchQueueNums s.tickets b := by
    rw [branchQueueNums_eq_of_frame, branchQueueNums_eq_of_frame, hframe]
  rw [heq]
  exact h b

/-- One command preserves per-branch queue-number distinctness. -/
theorem step_preserves_branch_nodup (s : AppState) (c : Cmd)
    (h : ∀ b, (branchQueueNums s.tickets b).Nodup) :
    ∀ b, (branchQueueNums (step s c).tickets b).Nodup := by
  intro b
  cases c with
  | join bj now =>
    have key := branchQueueNums_addTicket s bj now b
    show (branchQueueNums (addTicket s bj now).tickets b).Nodup
    rw [key]
    by_cases hb : bj = b
    · rw [if_pos hb]
      refine List.Nodup.append (h b) (List.nodup_singleton _) ?_
      intro x hx hy
      have hle : x ≤ natMaxList (branchQueueNums s.tickets b) :=
        le_natMaxList _ x hx
      have hxe : x = natMaxList (branchQueueNums s.tickets bj) + 1 := by
        simpa using hy
      rw [hb] at hxe
      omega
    · rw [if_neg hb]
      simpa using h b
  | updateStatus id st trig r now =>
    exact branch_nodup_of_frame s (Cmd.updateStatus id st trig r now)
      (frameTriple_step_nonjoin s _ (fun bj n2 hj => Cmd.noConfusion hj)) h b
  | update id patch now =>
    exact branch_nodup_of_frame s (Cmd.update id patch now)
      (frameTriple_step_nonjoin s _ (fun bj n2 hj => Cmd.noConfusion hj)) h b
  | promote bp now =>
    exact branch_nodup_of_frame s (Cmd.promote bp now)
      (frameTriple_step_nonjoin s _ (fun bj n2 hj => Cmd.noConfusion hj)) h b
  | flagNoShow id now =>
    exact branch_nodup_of_frame s (Cmd.flagNoShow id now)
      (frameTriple_step_nonjoin s _ (fun bj n2 hj => Cmd.noConfusion hj)) h b
  | feedback id stars =>
    exact branch_nodup_of_frame s (Cmd.feedback id stars)
      (frameTriple_step_nonjoin s _ (fun bj n2 hj => Cmd.noConfusion hj)) h b

/-- Every reachable state has pairwise-distinct queue numbers within each
branch (over ALL its tickets, terminal ones included). -/
theorem reachable_branch_nodup (cfg : BranchConfig) (s : AppState)
    (h : Reachable cfg s) : ∀ b, (branchQueueNums s.tickets b).Nodup := by
  obtain ⟨cmds, rfl⟩ := h
  have key : ∀ (cs : List Cmd) (s0 : AppState),
      (∀ b, (branchQueueNums s0.tickets b).Nodup) →
      ∀ b, (branchQueueNums (run s0 cs).tickets b).Nodup := by
    intro cs
    induction cs with
    | nil => intro s0 h0; exact h0
    | cons c cs ih =>
      intro s0 h0
      exact ih (step s0 c) (step_preserves_branch_nodup s0 c h0)
  refine key cmds (initState cfg) ?_
  intro b
  simp [initState, branchQueueNums]

/-- Filtering on a conjunction yields a sublist of filtering on the first
conjunct. -/
theorem filter_and_sublist (l : List Ticket) (p q : Ticket → Bool) :
    List.Sublist (l.filter (fun t => p t && q t)) (l.filter p) := by
  induction l with
  | nil => simp
  | cons a t ih =>
    simp only [List.filter_cons]
    cases hp : p a
    · simpa [hp] using ih
    · cases hq : q a
      · simp only [hp, hq, Bool.and_false]
        exact ih.cons a
      · simp only [hp, hq, Bool.and_true]
        exact ih.cons₂ a

/-- C7: in every state reachable through the coordinator's command surface,
the queue numbers of the non-terminal tickets of one branch are pairwise
distinct.  (The code maintains the stronger invariant that ALL tickets of
a branch have distinct queue numbers: joins always take the maximum over
the whole branch plus one, and no other operation writes queue numbers.) -/
theorem C7_nonterminal_queueNumbers_distinct (cfg : BranchConfig)
    (s : AppState) (h : Reachable cfg s) (b : String) :
    ((s.tickets.filter (fun t => decide (t.branchId = b) && !isTerminal t.status)).map
      (fun t => t.queueNumber)).Nodup := by
  have hall := reachable_branch_nodup cfg s h b
  unfold branchQueueNums at hall
  have hsub := filter_and_sublist s.tickets
    (fun t => decide (t.branchId = b)) (fun t => !isTerminal t.status)
  exact List.Nodup.sublist (List.Sublist.map _ hsub) hall

/-- Witness for C7 at a concrete reachable two-ticket state. -/
theorem C7_nonterminal_queueNumbers_distinct_witness :
    ((c7wS.tickets.filter (fun t => decide (t.branchId = vfb) && !isTerminal t.status)).map
      (fun t => t.queueNumber)).Nodup :=
  C7_nonterminal_queueNumbers_distinct vieuxFortBranch c7wS
    ⟨[Cmd.join vfb 0, Cmd.join vfb 3], rfl⟩ vfb

/-! ### Claim C3 -/

/-- C3 counterexample: `c3S` is reachable, its branch is exactly at
capacity (9/9 inside), ticket 9 is REMOTE_WAITING — and invoking
`promoteNextRemoteCustomer` still promotes ticket 9 to
ELIGIBLE_FOR_ENTRY: the routine performs no capacity check, so it is NOT a
no-op while the building is full. -/
theorem C3_counterexample :
    Reachable vieuxFortBranch c3S ∧
    getInBuildingCount c3S vfb = vieuxFortBranch.maxInBuilding ∧
    statusOf c3S.tickets 9 = some TicketStatus.REMOTE_WAITING ∧
    statusOf (step c3S (Cmd.promote vfb 300)).tickets 9 =
      some TicketStatus.ELIGIBLE_FOR_ENTRY := by
  refine ⟨⟨c3Cmds, rfl⟩, ?_, ?_, ?_⟩ <;> decide

/-- C3 amended: `promoteNextRemoteCustomer` is a no-op exactly when the
branch has no REMOTE_WAITING/WAITING ticket; it never consults occupancy,
so whenever a waiting ticket exists the first one with the lowest queue
number is promoted to ELIGIBLE_FOR_ENTRY even if the building is full. -/
theorem C3_amended_promote_ignores_capacity (s : AppState) (b : String)
    (now : Nat) :
    (remoteWaitingIn s.tickets b = [] → step s (Cmd.promote b now) = s) ∧
    (∀ c, firstByQueueNumber (remoteWaitingIn s.tickets b) = some c →
      statusOf (step s (Cmd.promote b now)).tickets c.id =
        some TicketStatus.ELIGIBLE_FOR_ENTRY) := by
  constructor
  · intro h
    show { s with tickets := promoteNextRemoteCustomer s b now } = s
    unfold promoteNextRemoteCustomer promoteStep
    rw [h]
    rfl
  · intro c hc
    have hcmem := mem_remoteWaitingIn _ _ _ (firstByQueueNumber_mem _ _ hc)
    obtain ⟨u, hu⟩ := find?_id_isSome s.tickets c hcmem.1
    show statusOf (promoteNextRemoteCustomer s b now) c.id = _
    unfold promoteNextRemoteCustomer
    exact statusOf_promoteStep_candidate s.cfg s.tickets s.tickets b now c hc u hu

/-- Witness for the amended C3: the one-seat branch `c3wS` is full, yet the
promotion still fires and marks the waiting ticket eligible. -/
theorem C3_amended_promote_ignores_capacity_witness :
    getInBuildingCount c3wS "b" = bCfg.maxInBuilding ∧
    statusOf (step c3wS (Cmd.promote ("b") 7)).tickets 1 =
      some TicketStatus.ELIGIBLE_FOR_ENTRY :=
  ⟨by decide,
    (C3_amended_promote_ignores_capacity c3wS ("b") 7).2 c3wC (by decide)⟩

/-! ### Claim C6 -/

/-- C6 counterexample: in the reachable state `c6S`, ticket 0 went
IN_SERVICE -> SERVED (occupancy dropped to 0, room free) while ticket 1
waits REMOTE_WAITING with the lowest queue number — yet no promotion was
invoked: ticket 1 is still REMOTE_WAITING, not ELIGIBLE_FOR_ENTRY.  The
code only calls `promoteNextRemoteCustomer` when the transition LEFT
IN_BUILDING, never after IN_SERVICE -> SERVED. -/
theorem C6_counterexample :
    Reachable vieuxFortBranch c6S ∧
    statusOf c6S.tickets 0 = some TicketStatus.SERVED ∧
    getInBuildingCount c6S vfb < vieuxFortBranch.maxInBuilding ∧
    statusOf c6S.tickets 1 = some TicketStatus.REMOTE_WAITING := by
  refine ⟨⟨c6Cmds, rfl⟩, ?_, ?_, ?_⟩ <;> decide

/-- C6 amended: `promoteNextRemoteCustomer` is invoked after exactly the
transitions whose `fromStatus` is IN_BUILDING and whose target is one of
REMOTE_WAITING / IN_SERVICE / IN_TRANSACTION / SERVED / COMPLETED /
REMOVED; in that case the waiting ticket with the lowest queue number is
promoted to ELIGIBLE_FOR_ENTRY.  (Transitions out of IN_SERVICE, as the
counterexample shows, trigger nothing.) -/
theorem C6_amended_promote_only_from_in_building (s : AppState) (id : Nat)
    (target : TicketStatus) (trig : Actor) (r : Option String) (now : Nat)
    (t0 c : Ticket)
    (hfind : s.tickets.find? (fun t => t.id = id) = some t0)
    (hfrom : t0.status = TicketStatus.IN_BUILDING)
    (hleave : isLeavingBuilding target = true)
    (hc : firstByQueueNumber (remoteWaitingIn s.tickets t0.branchId) = some c) :
    ∃ ts, updateTicketStatus s id target trig r now = Except.ok ts ∧
      statusOf ts c.id = some TicketStatus.ELIGIBLE_FOR_ENTRY := by
  have htgt : target ≠ TicketStatus.IN_BUILDING := by
    intro hh
    rw [hh] at hleave
    exact absurd hleave (by decide)
  have hcmem := mem_remoteWaitingIn _ _ _ (firstByQueueNumber_mem _ _ hc)
  unfold updateTicketStatus
  simp only [hfind]
  rw [if_neg (fun hcon => htgt hcon.1)]
  rw [if_pos ⟨hfrom, hleave⟩]
  refine ⟨_, rfl, ?_⟩
  obtain ⟨u, hu⟩ := find?_id_isSome s.tickets c hcmem.1
  have hidpres : ∀ t : Ticket,
      ((fun t => if t.id = id then
        applyStatusUpdate t0 t0.status target trig r s.tellerId now t else t) t).id = t.id := by
    intro t
    by_cases hti : t.id = id
    · simp [hti, (applyStatusUpdate_fields t0 t0.status target trig r s.tellerId now t).2.1]
    · simp [hti]
  have hupd : (s.tickets.map (fun t =>
      if t.id = id then applyStatusUpdate t0 t0.status target trig r s.tellerId now t
      else t)).find? (fun t => t.id = c.id) = some
        ((fun t => if t.id = id then
          applyStatusUpdate t0 t0.status target trig r s.tellerId now t else t) u) := by
    rw [find?_map_id _ _ _ hidpres, hu]
    rfl
  exact statusOf_promoteStep_candidate s.cfg s.tickets _ t0.branchId now c hc _ hupd

/-- Witness for the amended C6: serving the IN_BUILDING ticket of `c6wS`
promotes the waiting ticket. -/
theorem C6_amended_promote_only_from_in_building_witness :
    ∃ ts, updateTicketStatus c6wS 0 TicketStatus.SERVED Actor.teller none 9 =
      Except.ok ts ∧ statusOf ts 1 = some TicketStatus.ELIGIBLE_FOR_ENTRY :=
  C6_amended_promote_only_from_in_building c6wS 0 TicketStatus.SERVED Actor.teller
    none 9 c6wT c6wC (by decide) (by decide) (by decide) (by decide)

/-! ### Claim C9 -/

/-- C9 counterexample: `c9Pre` is reachable with a single SERVED ticket
holding queue number 1 (so the spec's `max(active, default 0) + 1` is 1),
but the next join (`c9S`) hands out queue number 2: `addTicket` maximises
over ALL tickets of the branch, terminal ones included. -/
theorem C9_counterexample :
    Reachable vieuxFortBranch c9S ∧
    activeIn c9Pre.tickets vfb = [] ∧
    nextNumberSpec c9Pre.tickets vfb = 1 ∧
    c9S = step c9Pre (Cmd.join vfb 20) ∧
    queueNumberOf c9S.tickets 1 = some 2 := by
  refine ⟨⟨c9Cmds, rfl⟩, ?_, ?_, ?_, ?_⟩ <;> decide

/-- C9 amended: a join appends a fresh ticket with status REMOTE_WAITING
whose queue number is the maximum queue number over ALL tickets of the
branch — terminal ones included, not just the active ones — plus one
(1 for a branch with no tickets at all). -/
theorem C9_amended_join_max_over_all (s : AppState) (b : String) (now : Nat) :
    ∃ newT : Ticket,
      (addTicket s b now).tickets = s.tickets ++ [newT] ∧
      newT.status = TicketStatus.REMOTE_WAITING ∧
      newT.id = s.nextId ∧
      newT.queueNumber = natMaxList (branchQueueNums s.tickets b) + 1 := by
  refine ⟨_, rfl, rfl, rfl, ?_⟩
  exact addTicket_nextNum s.tickets b

/-! ### Claim C1 -/

/-- Filter lengths over disjoint predicates sum to a disjunctive count. -/
theorem length_filter_add_of_disjoint (l : List Ticket) (p q : Ticket → Bool)
    (h : ∀ t, p t = true → q t = false) :
    (l.filter p).length + (l.filter q).length = l.countP (fun t => p t || q t) := by
  induction l with
  | nil => rfl
  | cons a t ih =>
    rw [List.filter_cons, List.filter_cons, List.countP_cons]
    cases hp : p a
    · cases hq : q a
      · simpa [hp, hq] using ih
      · simp only [hp, hq]
        simp
        omega
    · have hq := h a hp
      simp only [hp, hq]
      simp
      omega

/-- The occupancy count is a single `countP`. -/
theorem getInBuildingCountList_eq_countP (cfg : BranchConfig) (l : List Ticket)
    (b : String) :
    getInBuildingCountList cfg l b = l.countP (countsTowardOccupancy cfg b) := by
  simp only [getInBuildingCountList]
  cases hex : cfg.excludeInServiceFromCapacity
  case true =>
    rw [if_pos rfl]
    simp only [List.length_nil, Nat.add_zero]
    rw [← List.countP_eq_length_filter, List.countP_filter]
    congr 1
    funext t
    unfold countsTowardOccupancy
    rw [hex]
    cases d1 : decide (t.status = TicketStatus.IN_BUILDING) <;>
      cases d2 : decide (t.branchId = b) <;> simp [d1, d2]
  case false =>
    rw [if_neg Bool.false_ne_true]
    rw [length_filter_add_of_disjoint]
    · rw [List.countP_filter]
      congr 1
      funext t
      unfold countsTowardOccupancy
      rw [hex]
      cases d1 : decide (t.status = TicketStatus.IN_BUILDING) <;>
        cases d2 : decide (t.branchId = b) <;>
          by_cases hsv : t.status = TicketStatus.IN_SERVICE <;>
            by_cases htr : t.status = TicketStatus.IN_TRANSACTION <;>
              simp [d1, d2, hsv, htr]
    · intro t hp
      have hb := of_decide_eq_true hp
      rw [decide_eq_false]
      rintro (h2 | h2) <;> rw [hb] at h2 <;> cases h2

/-- Counting is unchanged under a map that leaves the predicate value of
every member as it was. -/
theorem countP_map_congr (l : List Ticket) (f : Ticket → Ticket)
    (p : Ticket → Bool) (h : ∀ t ∈ l, p (f t) = p t) :
    (l.map f).countP p = l.countP p := by
  induction l with
  | nil => rfl
  | cons a t ih =>
    rw [List.map_cons, List.countP_cons, List.countP_cons,
      h a (List.mem_cons_self a t),
      ih (fun x hx => h x (List.mem_cons_of_mem a hx))]

/-- With pairwise-distinct ids, at most one ticket carries a given id. -/
theorem countP_id_le_one (l : List Ticket)
    (hnd : (l.map (fun t => t.id)).Nodup) (id : Nat) :
    l.countP (fun t => t.id = id) ≤ 1 := by
  induction l with
  | nil => simp
  | cons a t ih =>
    rw [List.countP_cons]
    simp only [List.map_cons, List.nodup_cons] at hnd
    by_cases ha : a.id = id
    · have hz : t.countP (fun u => u.id = id) = 0 := by
        rw [List.countP_eq_zero]
        intro u hu hcontra
        have hu2 : u.id = id := of_decide_eq_true hcontra
        exact hnd.1 ((ha.trans hu2.symm) ▸ List.mem_map_of_mem (fun v => v.id) hu)
      simp [ha, hz]
    · simpa [ha] using ih hnd.2

/-- A map that can change at most the tickets carrying one (unique) id
raises any count by at most one. -/
theorem countP_map_le_succ (l : List Ticket) (f : Ticket → Ticket)
    (p : Ticket → Bool) (id : Nat)
    (hf : ∀ t, t.id ≠ id → f t = t)
    (hone : l.countP (fun t => t.id = id) ≤ 1) :
    (l.map f).countP p ≤ l.countP p + 1 := by
  induction l with
  | nil => simp
  | cons a t ih =>
    rw [List.map_cons, List.countP_cons, List.countP_cons]
    by_cases ha : a.id = id
    · have htail : t.countP (fun u => u.id = id) = 0 := by
        rw [List.countP_cons,
          if_pos (show (decide (a.id = id)) = true by simp [ha])] at hone
        omega
      have hz := List.countP_eq_zero.mp htail
      have hmap : t.map f = t := by
        have : t.map f = t.map (fun x => x) :=
          List.map_congr_left (fun x hx => hf x (fun he => hz x hx (by simp [he])))
        rw [this, List.map_id']
      rw [hmap]
      by_cases hpa : p (f a) = true <;> by_cases hpb : p a = true
      all_goals simp [hpa, hpb]
      all_goals omega
    · rw [hf a ha]
      have hone2 : t.countP (fun u => u.id = id) ≤ 1 := by
        rw [List.countP_cons] at hone
        omega
      have := ih hone2
      omega

/-- C1 counterexample: the state `c1S` is reachable through the command
surface (10 joins, 9 gated admissions, then one transition straight to
IN_SERVICE which the code does not gate), yet its occupancy is 10 while
`maxInBuilding` is 9: the claimed occupancy invariant does not hold. -/
theorem C1_counterexample :
    Reachable vieuxFortBranch c1S ∧
    getInBuildingCount c1S vfb = 10 ∧
    vieuxFortBranch.maxInBuilding = 9 := by
  refine ⟨⟨c1Cmds, rfl⟩, ?_, rfl⟩
  decide

/-- C1 amended: only the `updateTicketStatus` path into IN_BUILDING is
gated, and that path does preserve the occupancy bound: in a state with
pairwise-distinct ids whose occupancy is within `maxInBuilding`, a
successful transition to IN_BUILDING leaves every branch's occupancy
within `maxInBuilding`.  (Transitions to IN_SERVICE/IN_TRANSACTION and
`updateTicket` status patches are unguarded, so the bound can still be
broken through them, as the counterexample shows.) -/
theorem C1_amended_gate_preserves_bound (s : AppState) (id : Nat)
    (trig : Actor) (r : Option String) (now : Nat) (t0 : Ticket)
    (ts : List Ticket) (b : String)
    (hnd : (s.tickets.map (fun u => u.id)).Nodup)
    (hfind : s.tickets.find? (fun t => t.id = id) = some t0)
    (hok : updateTicketStatus s id TicketStatus.IN_BUILDING trig r now = Except.ok ts)
    (hb : getInBuildingCountList s.cfg s.tickets b ≤ s.cfg.maxInBuilding) :
    getInBuildingCountList s.cfg ts b ≤ s.cfg.maxInBuilding := by
  unfold updateTicketStatus at hok
  simp only [hfind] at hok
  split at hok
  · exact Except.noConfusion hok
  · rename_i hg
    have hlt : getInBuildingCount s t0.branchId < s.cfg.maxInBuilding := by
      by_contra hcon
      exact hg ⟨trivial, le_of_not_lt hcon⟩
    split at hok
    · rename_i hp
      exact absurd hp.2 (by decide)
    · injection hok with hok2
      subst hok2
      have hidf : ∀ t : Ticket, t.id ≠ id →
          (if t.id = id then
            applyStatusUpdate t0 t0.status TicketStatus.IN_BUILDING trig r s.tellerId now t
           else t) = t := fun t ht => if_neg ht
      by_cases hbb : t0.branchId = b
      · rw [getInBuildingCountList_eq_countP]
        rw [getInBuildingCountList_eq_countP] at hb
        have hone := countP_id_le_one s.tickets hnd id
        have hstep := countP_map_le_succ s.tickets _
          (countsTowardOccupancy s.cfg b) id hidf hone
        have hcc : getInBuildingCount s t0.branchId =
            s.tickets.countP (countsTowardOccupancy s.cfg b) := by
          rw [hbb]
          exact getInBuildingCountList_eq_countP s.cfg s.tickets b
        rw [hcc] at hlt
        omega
      · rw [getInBuildingCountList_eq_countP]
        rw [getInBuildingCountList_eq_countP] at hb
        rw [countP_map_congr]
        · exact hb
        · intro t ht
          by_cases hti : t.id = id
          · have ht0mem := List.mem_of_find?_eq_some hfind
            have hteq : t = t0 := eq_of_nodup_id s.tickets t t0 hnd ht ht0mem
              (by rw [hti, id_of_find? s.tickets id t0 hfind])
            have hfb : (if t.id = id then
                applyStatusUpdate t0 t0.status TicketStatus.IN_BUILDING trig r s.tellerId now t
               else t).branchId = t.branchId := by
              rw [if_pos hti]
              exact (applyStatusUpdate_fields t0 t0.status TicketStatus.IN_BUILDING
                trig r s.tellerId now t).2.2.2
            have hnb : t.branchId ≠ b := by
              rw [hteq]
              exact hbb
            unfold countsTowardOccupancy
            rw [hfb, decide_eq_false hnb]
            simp
          · rw [if_neg hti]

/-- Witness for the amended C1: admitting the single waiting ticket of
`c5S` succeeds and keeps the occupancy within the one-seat bound. -/
theorem C1_amended_gate_preserves_bound_witness :
    getInBuildingCountList c5S.cfg c1wTs "b" ≤ c5S.cfg.maxInBuilding :=
  C1_amended_gate_preserves_bound c5S 0 Actor.reception none 5 c5T c1wTs ("b")
    (by decide) (by decide) (by rfl) (by decide)

/-! ### Claim C4 -/

/-- A map preserving id and status preserves `statusOf`. -/
theorem statusOf_map_pres (l : List Ticket) (f : Ticket → Ticket) (id : Nat)
    (hid : ∀ t, (f t).id = t.id) (hst : ∀ t, (f t).status = t.status) :
    statusOf (l.map f) id = statusOf l id := by
  unfold statusOf
  rw [find?_map_id _ _ _ hid]
  cases h : l.find? (fun t => t.id = id) <;> simp [hst]

/-- A map preserving id and queue number preserves `queueNumberOf`. -/
theorem queueNumberOf_map_pres (l : List Ticket) (f : Ticket → Ticket) (id : Nat)
    (hid : ∀ t, (f t).id = t.id) (hq : ∀ t, (f t).queueNumber = t.queueNumber) :
    queueNumberOf (l.map f) id = queueNumberOf l id := by
  unfold queueNumberOf
  rw [find?_map_id _ _ _ hid]
  cases h : l.find? (fun t => t.id = id) <;> simp [hq]

/-- `find?` by id through an id-preserving map, pointed form. -/
theorem find?_map_id_some (l : List Ticket) (f : Ticket → Ticket) (id : Nat)
    (u : Ticket) (hid : ∀ t, (f t).id = t.id)
    (hu : l.find? (fun t => t.id = id) = some u) :
    (l.map f).find? (fun t => t.id = id) = some (f u) := by
  rw [find?_map_id _ _ _ hid, hu]
  rfl

/-- Compaction renumbers but never touches a ticket's status. -/
theorem statusOf_compact (l : List Ticket) (b : String) (id : Nat) :
    statusOf (compact l b) id = statusOf l id := by
  unfold compact
  refine statusOf_map_pres _ _ _ ?_ ?_ <;> intro t <;>
    cases h : (sortByQueueNumber (activeIn l b)).findIdx? (fun u => u.id = t.id) <;>
      simp [h]

/-- C4: for a ticket eligible at `t0` in a branch whose grace period is 600
seconds (and which is the only ticket due for demotion), the sweep at
t0+599 s does NOT demote it — its status is still ELIGIBLE_FOR_ENTRY — and
the sweep at t0+601 s DOES demote it to REMOTE_WAITING, renumbering per the
demotion protocol: with `target = queueNumber + 4`, if another active
ticket of the branch holds `target` the two queue numbers are swapped,
otherwise the ticket receives `max(active queue numbers) + 1` (numbers read
on the demotion pass, before the final compaction). -/
theorem C4_grace_period_boundary (cfg : BranchConfig) (tickets : List Ticket)
    (b : String) (t : Ticket) (t0 : Nat)
    (hgrace : cfg.gracePeriodMinutes * 60 = 600)
    (hmem : t ∈ tickets)
    (hb : t.branchId = b)
    (hst : t.status = TicketStatus.ELIGIBLE_FOR_ENTRY)
    (hat : t.eligibleForEntryAt = some t0)
    (hnd : (tickets.map (fun u => u.id)).Nodup)
    (honly : tickets.filter
      (fun u => decide (u.branchId = b) && isExpired cfg (t0 + 601000) u) = [t]) :
    statusOf (checkGracePeriodExpiry cfg tickets b (t0 + 599000)) t.id =
      some TicketStatus.ELIGIBLE_FOR_ENTRY ∧
    statusOf (checkGracePeriodExpiry cfg tickets b (t0 + 601000)) t.id =
      some TicketStatus.REMOTE_WAITING ∧
    (match (activeIn tickets t.branchId).find?
        (fun u => decide (u.queueNumber = t.queueNumber + 4) && decide (u.id ≠ t.id)) with
     | some holder =>
       queueNumberOf (demotePass cfg tickets b (t0 + 601000)) t.id =
         some (t.queueNumber + 4) ∧
       queueNumberOf (demotePass cfg tickets b (t0 + 601000)) holder.id =
         some t.queueNumber
     | none =>
       queueNumberOf (demotePass cfg tickets b (t0 + 601000)) t.id =
         some (natMaxList ((activeIn tickets t.branchId).map (fun u => u.queueNumber)) + 1)) := by
  have hfind_t : tickets.find? (fun u => u.id = t.id) = some t :=
    find?_of_nodup_mem tickets t hnd hmem
  have hidpres : ∀ (f : Ticket → Ticket), (∀ u, (f u).id = u.id) → True := fun _ _ => trivial
  have h599 : tickets.filter
      (fun u => decide (u.branchId = b) && isExpired cfg (t0 + 599000) u) = [] := by
    rw [List.filter_eq_nil_iff]
    intro u hu hpred
    rcases Bool.and_eq_true_iff.mp hpred with ⟨hb1, hex1⟩
    have hu601 : (decide (u.branchId = b) && isExpired cfg (t0 + 601000) u) = true := by
      rw [Bool.and_eq_true_iff]
      refine ⟨hb1, ?_⟩
      unfold isExpired at hex1 ⊢
      rcases Bool.and_eq_true_iff.mp hex1 with ⟨hst1, hmatch⟩
      rw [Bool.and_eq_true_iff]
      refine ⟨hst1, ?_⟩
      cases hat1 : u.eligibleForEntryAt with
      | none => rw [hat1] at hmatch; cases hmatch
      | some t1 =>
        rw [hat1] at hmatch
        have hgt := of_decide_eq_true hmatch
        exact decide_eq_true (by omega)
    have humem : u ∈ tickets.filter
        (fun v => decide (v.branchId = b) && isExpired cfg (t0 + 601000) v) :=
      List.mem_filter.mpr ⟨hu, hu601⟩
    rw [honly] at humem
    have hut : u = t := by simpa using humem
    subst hut
    unfold isExpired at hex1
    rcases Bool.and_eq_true_iff.mp hex1 with ⟨_, hmatch⟩
    rw [hat] at hmatch
    have hgt := of_decide_eq_true hmatch
    omega
  have h599pass : demotePass cfg tickets b (t0 + 599000) = tickets := by
    unfold demotePass
    rw [h599]
    rfl
  have hpassB : demotePass cfg tickets b (t0 + 601000) =
      demoteById tickets t.id (t0 + 601000) := by
    unfold demotePass
    rw [honly]
    rfl
  refine ⟨?_, ?_, ?_⟩
  · unfold checkGracePeriodExpiry
    rw [h599pass, statusOf_compact]
    unfold statusOf
    rw [hfind_t]
    simp [hst]
  · unfold checkGracePeriodExpiry
    rw [hpassB, statusOf_compact]
    unfold demoteById
    simp only [hfind_t]
    rw [if_pos hst]
    cases hhold : (activeIn tickets t.branchId).find?
        (fun u => decide (u.queueNumber = t.queueNumber + 4) && decide (u.id ≠ t.id)) with
    | some holder =>
      unfold demoteRenumber
      simp only [hhold]
      unfold statusOf
      rw [find?_map_id_some _ _ _ _
        (fun u => by split
                     · rfl
                     · rfl)
        (find?_map_id_some _ _ _ _
          (fun u => by split
                       · rfl
                       · split
                         · rfl
                         · rfl)
          hfind_t)]
      simp
    | none =>
      unfold demoteRenumber
      simp only [hhold]
      unfold statusOf
      rw [find?_map_id_some _ _ _ _
        (fun u => by split
                     · rfl
                     · rfl)
        (find?_map_id_some _ _ _ _
          (fun u => by split
                       · rfl
                       · rfl)
          hfind_t)]
      simp
  · cases hhold : (activeIn tickets t.branchId).find?
        (fun u => decide (u.queueNumber = t.queueNumber + 4) && decide (u.id ≠ t.id)) with
    | some holder =>
      have hpredh := List.find?_some hhold
      rcases Bool.and_eq_true_iff.mp hpredh with ⟨hq9, hneq⟩
      have hq9 : holder.queueNumber = t.queueNumber + 4 := of_decide_eq_true hq9
      have hneq : holder.id ≠ t.id := of_decide_eq_true hneq
      have hholdmem : holder ∈ tickets :=
        List.mem_of_mem_filter (List.mem_of_find?_eq_some hhold)
      have hfind_h : tickets.find? (fun u => u.id = holder.id) = some holder :=
        find?_of_nodup_mem tickets holder hnd hholdmem
      rw [hpassB]
      unfold demoteById
      simp only [hfind_t]
      rw [if_pos hst]
      unfold demoteRenumber
      simp only [hhold]
      constructor
      · unfold queueNumberOf
        rw [find?_map_id_some _ _ _ _
          (fun u => by split
                       · rfl
                       · rfl)
          (find?_map_id_some _ _ _ _
            (fun u => by split
                         · rfl
                         · split
                           · rfl
                           · rfl)
            hfind_t)]
        simp
      · unfold queueNumberOf
        rw [find?_map_id_some _ _ _ _
          (fun u => by split
                       · rfl
                       · rfl)
          (find?_map_id_some _ _ _ _
            (fun u => by split
                         · rfl
                         · split
                           · rfl
                           · rfl)
            hfind_h)]
        simp [hneq]
    | none =>
      rw [hpassB]
      unfold demoteById
      simp only [hfind_t]
      rw [if_pos hst]
      unfold demoteRenumber
      simp only [hhold]
      unfold queueNumberOf
      rw [find?_map_id_some _ _ _ _
        (fun u => by split
                     · rfl
                     · rfl)
        (find?_map_id_some _ _ _ _
          (fun u => by split
                       · rfl
                       · rfl)
          hfind_t)]
      simp

/-- Witness for C4 at spec scenario B: queue number 5, another active
ticket holding 9; the sweep at 599 s keeps it eligible, the sweep at 601 s
demotes it and the protocol swaps the numbers 5 and 9. -/
theorem C4_grace_period_boundary_witness :
    statusOf (checkGracePeriodExpiry bCfg c4wTickets "b" (1000 + 599000)) 0 =
      some TicketStatus.ELIGIBLE_FOR_ENTRY ∧
    statusOf (checkGracePeriodExpiry bCfg c4wTickets "b" (1000 + 601000)) 0 =
      some TicketStatus.REMOTE_WAITING ∧
    queueNumberOf (demotePass bCfg c4wTickets "b" (1000 + 601000)) 0 = some 9 ∧
    queueNumberOf (demotePass bCfg c4wTickets "b" (1000 + 601000)) 1 = some 5 := by
  have h := C4_grace_period_boundary bCfg c4wTickets ("b") c4wT 1000
    (by decide) (by decide) (by decide) (by decide) (by decide) (by decide) (by decide)
  refine ⟨h.1, h.2.1, ?_⟩
  have h3 := h.2.2
  rw [show (activeIn c4wTickets c4wT.branchId).find?
      (fun u => decide (u.queueNumber = c4wT.queueNumber + 4) && decide (u.id ≠ c4wT.id)) =
      some c4wU from by decide] at h3
  exact h3

end DocQline
